import Mathlib

/-!
# Bus stop regulatory element (`lanelet2_extension/lib/bus_stop.cpp`)

A shallow embedding of `lanelet::autoware::BusStop` and of the part of the
lanelet2 core library it is written against, followed by theorems about the
operations of the class.

Conventions of the embedding.

* Primitives (`Point3d`, `LineString3d`, `Polygon3d`, ...) are handles on
  shared data.  lanelet2 compares primitives by the identity of the data they
  point to, so a primitive is modelled by the identity of its data.  The
  read-only variants (`ConstPolygon3d`, `ConstLineString3d`) are views on the
  same data and are the same Lean type.
* `RuleParameter` is the `boost::variant` over the five primitive kinds.
* `HybridMap` (the string keyed map behind `RuleParameterMap` and
  `AttributeMap`) is an association list in which a key is looked up from the
  front.
* A C++ exception is the `error` case of `Except`.
* An operation whose C++ execution has undefined behaviour (dereferencing the
  end iterator, `front()` of an empty vector) returns `none`.
* A mutating member function returns the updated object.
-/

namespace lanelet

/-! ## The lanelet2 core types used by the class -/

/-- Identifier of a primitive (`lanelet::Id`, a 64 bit signed integer). -/
abbrev Id := Int

/-- Handle on the data of a three-dimensional point. -/
structure Point3d where
  dataId : Nat
  deriving DecidableEq, Repr

/-- Handle on the data of a line string; `inverted` is the direction flag that
takes part in the comparison of line strings. -/
structure LineString3d where
  dataId : Nat
  inverted : Bool
  deriving DecidableEq, Repr

/-- Handle on the data of a polygon. -/
structure Polygon3d where
  dataId : Nat
  deriving DecidableEq, Repr

/-- Weak reference to a lanelet. -/
structure WeakLanelet where
  dataId : Nat
  deriving DecidableEq, Repr

/-- Weak reference to an area. -/
structure WeakArea where
  dataId : Nat
  deriving DecidableEq, Repr

/-- Read-only view on a polygon: same data as the mutable handle. -/
abbrev ConstPolygon3d := Polygon3d

/-- Read-only view on a line string: same data as the mutable handle. -/
abbrev ConstLineString3d := LineString3d

abbrev Polygons3d := List Polygon3d

abbrev ConstPolygons3d := List ConstPolygon3d

/-- The variant `boost::variant<Point3d, LineString3d, Polygon3d, WeakLanelet, WeakArea>`. -/
inductive RuleParameter where
  | point (p : Point3d)
  | lineString (l : LineString3d)
  | polygon (p : Polygon3d)
  | weakLanelet (l : WeakLanelet)
  | weakArea (a : WeakArea)
  deriving DecidableEq, Repr

abbrev RuleParameters := List RuleParameter

/-- The call `boost::get<Polygon3d>(&param)`: the polygon held, or no result
(a null pointer) when the variant holds another kind. -/
def RuleParameter.getPolygon3d : RuleParameter → Option Polygon3d
  | .polygon p => some p
  | _ => none

/-- The call `boost::get<LineString3d>(&param)`. -/
def RuleParameter.getLineString3d : RuleParameter → Option LineString3d
  | .lineString l => some l
  | _ => none

/-- String keyed map (`lanelet::HybridMap`); the first entry of a key is the
one the map holds for it. -/
abbrev HybridMap (V : Type) := List (String × V)

namespace HybridMap

/-- The lookup `m.find(k)`; `none` is the end iterator. -/
def find {V : Type} : HybridMap V → String → Option V
  | [], _ => none
  | (k', v) :: rest, k => if k' = k then some v else find rest k

/-- The assignment `m[k] = v`: overwrites the value of `k`, or adds the key. -/
def assign {V : Type} : HybridMap V → String → V → HybridMap V
  | [], k, v => [(k, v)]
  | (k', v') :: rest, k, v =>
    if k' = k then (k', v) :: rest else (k', v') :: assign rest k v

/-- The call `m.insert(std::make_pair(k, v))`: adds the key when it is absent
and leaves the map as it is otherwise. -/
def insert {V : Type} (m : HybridMap V) (k : String) (v : V) : HybridMap V :=
  match find m k with
  | some _ => m
  | none => assign m k v

/-- The access `m[k]`: the value of `k`, value-initialised (here: the empty
list) and added to the map when the key is absent. -/
def index {V : Type} (m : HybridMap (List V)) (k : String) : List V × HybridMap (List V) :=
  match find m k with
  | some v => (v, m)
  | none => ([], assign m k [])

end HybridMap

abbrev RuleParameterMap := HybridMap RuleParameters

/-- Attribute value (`lanelet::Attribute`, a string with cached conversions). -/
abbrev Attribute := String

abbrev AttributeMap := HybridMap Attribute

namespace RoleNameString

def Refers : String := "refers"

def RefLine : String := "ref_line"

end RoleNameString

namespace AttributeName

/-- The key `AttributeName::Type` (`Type` itself is reserved in Lean). -/
def Type_ : String := "type"

def Subtype : String := "subtype"

end AttributeName

namespace AttributeValueString

def RegulatoryElement : String := "regulatory_element"

end AttributeValueString

/-- The record `lanelet::RegulatoryElementData`. -/
structure RegulatoryElementData where
  id : Id
  parameters : RuleParameterMap
  attributes : AttributeMap
  deriving DecidableEq, Repr

/-- The exception `lanelet::InvalidInputError`, with its message. -/
structure InvalidInputError where
  what : String
  deriving DecidableEq, Repr

/-- The member `RegulatoryElement::getParameters<LineString3d>(role)` (and its
read-only twin): the line strings among the parameters of `role`, in order;
empty when the role is absent. -/
def getParameters (parameters : RuleParameterMap) (role : String) : List LineString3d :=
  match HybridMap.find parameters role with
  | none => []
  | some params => params.filterMap RuleParameter.getLineString3d

/-! ## `bus_stop.cpp` -/

namespace autoware

/-- The helper `findAndErase`: `member` is the pointer argument (`none` is the
null pointer).  Returns the result of the call and the list `member` points to
afterwards: the first entry equal to `RuleParameter(primitive)` is erased when
there is one. -/
def findAndErase (primitive : Polygon3d) (member : Option RuleParameters) :
    Bool × Option RuleParameters :=
  match member with
  | none => (false, none)
  | some params =>
    if RuleParameter.polygon primitive ∈ params then
      (true, some (params.erase (RuleParameter.polygon primitive)))
    else
      (false, some params)

/-- The helper `toRuleParameters`: every primitive cast to a `RuleParameter`. -/
def toRuleParameters (primitives : List Polygon3d) : RuleParameters :=
  primitives.map RuleParameter.polygon

/-- The helper `getPoly`: the polygons among the parameters of `role`, in
order; empty when the role is absent. -/
def getPoly (paramsMap : RuleParameterMap) (role : String) : Polygons3d :=
  match HybridMap.find paramsMap role with
  | none => []
  | some params => params.filterMap RuleParameter.getPolygon3d

/-- The helper `getConstPoly`: the result of `getPoly`, cast to read-only
polygons. -/
def getConstPoly (params : RuleParameterMap) (role : String) : ConstPolygons3d :=
  (getPoly params role).map (fun poly => (poly : ConstPolygon3d))

/-- The helper `constructBusStopData`. -/
def constructBusStopData (id : Id) (attributes : AttributeMap) (busStops : Polygons3d)
    (stopLine : LineString3d) : RegulatoryElementData :=
  let rpm : RuleParameterMap := [(RoleNameString.Refers, toRuleParameters busStops)]
  let rule_parameters : RuleParameters := [RuleParameter.lineString stopLine]
  let rpm := HybridMap.insert rpm RoleNameString.RefLine rule_parameters
  let data : RegulatoryElementData := ⟨id, rpm, attributes⟩
  let data := { data with
    attributes := HybridMap.assign data.attributes AttributeName.Type_
      AttributeValueString.RegulatoryElement }
  let data := { data with
    attributes := HybridMap.assign data.attributes AttributeName.Subtype "bus_stop" }
  data

/-- The class `BusStop`: a regulatory element, which is its data. -/
structure BusStop where
  data : RegulatoryElementData
  deriving DecidableEq, Repr

namespace BusStop

/-- The constant `BusStop::RuleName`. -/
def RuleName : String := "bus_stop"

/-- The accessor `RegulatoryElement::parameters()`. -/
def parameters (b : BusStop) : RuleParameterMap := b.data.parameters

/-- The accessor `RegulatoryElement::id()`. -/
def id (b : BusStop) : Id := b.data.id

/-- The accessor `RegulatoryElement::attributes()`. -/
def attributes (b : BusStop) : AttributeMap := b.data.attributes

/-- The constructor `BusStop::BusStop(const RegulatoryElementDataPtr &)`. -/
def fromData (data : RegulatoryElementData) : Except InvalidInputError BusStop :=
  if (getConstPoly data.parameters RoleNameString.Refers).isEmpty then
    .error ⟨"No bus stop defined!"⟩
  else if (getParameters data.parameters RoleNameString.RefLine).length ≠ 1 then
    .error ⟨"There must be exactly one stopline defined!"⟩
  else
    .ok ⟨data⟩

/-- The constructor `BusStop::BusStop(Id, const AttributeMap &, const Polygons3d &,
const LineString3d &)`, which delegates to the constructor from data. -/
def fromParts (id : Id) (attributes : AttributeMap) (busStops : Polygons3d)
    (stopLine : LineString3d) : Except InvalidInputError BusStop :=
  fromData (constructBusStopData id attributes busStops stopLine)

/-- The factory `BusStop::make`. -/
def make (id : Id) (attributes : AttributeMap) (busStops : Polygons3d)
    (stopLine : LineString3d) : Except InvalidInputError BusStop :=
  fromParts id attributes busStops stopLine

/-- The member `ConstPolygons3d BusStop::busStops() const`. -/
def busStopsConst (b : BusStop) : ConstPolygons3d :=
  getConstPoly b.parameters RoleNameString.Refers

/-- The member `Polygons3d BusStop::busStops()`. -/
def busStops (b : BusStop) : Polygons3d :=
  getPoly b.parameters RoleNameString.Refers

/-- The member `BusStop::addBusStop`. -/
def addBusStop (b : BusStop) (primitive : Polygon3d) : BusStop :=
  let (member, params) := HybridMap.index b.parameters "bus_stop"
  { b with data := { b.data with
      parameters := HybridMap.assign params "bus_stop"
        (member ++ [RuleParameter.polygon primitive]) } }

/-- The member `BusStop::removeBusStop`: the returned flag and the updated
object, or `none` when `find("bus_stop")` is the end iterator, which the code
dereferences. -/
def removeBusStop (b : BusStop) (primitive : Polygon3d) : Option (Bool × BusStop) :=
  match HybridMap.find b.parameters "bus_stop" with
  | none => none
  | some member =>
    match findAndErase primitive (some member) with
    | (r, some member') =>
      some (r, { b with data := { b.data with
        parameters := HybridMap.assign b.parameters "bus_stop" member' } })
    | (r, none) => some (r, b)

/-- The member `LineString3d BusStop::stopLine()`: `front()` of the line
strings of the RefLine role, `none` when there is none. -/
def stopLine (b : BusStop) : Option LineString3d :=
  (getParameters b.parameters RoleNameString.RefLine).head?

/-- The member `ConstLineString3d BusStop::stopLine() const`. -/
def stopLineConst (b : BusStop) : Option ConstLineString3d :=
  (getParameters b.parameters RoleNameString.RefLine).head?

/-- The member `BusStop::setStopLine`. -/
def setStopLine (b : BusStop) (stopLine : LineString3d) : BusStop :=
  { b with data := { b.data with
      parameters := HybridMap.assign b.parameters RoleNameString.RefLine
        [RuleParameter.lineString stopLine] } }

/-- The member `BusStop::removeStopLine`. -/
def removeStopLine (b : BusStop) : BusStop :=
  { b with data := { b.data with
      parameters := HybridMap.assign b.parameters RoleNameString.RefLine [] } }

end BusStop

/-! ## Properties as the specification words them -/

/-- Whether the variant holds a polygon. -/
def isPolygon : RuleParameter → Bool
  | .polygon _ => true
  | _ => false

/-- Whether the variant holds a line string. -/
def isLineString : RuleParameter → Bool
  | .lineString _ => true
  | _ => false

/-- The role holds no polygon entry: it is absent, empty, or holds only
entries of other kinds. -/
def holdsNoPolygon (m : RuleParameterMap) (role : String) : Bool :=
  match HybridMap.find m role with
  | none => true
  | some params => params.all (fun x => !isPolygon x)

/-- The number of line-string entries the role holds (zero when it is absent). -/
def lineStringCount (m : RuleParameterMap) (role : String) : Nat :=
  match HybridMap.find m role with
  | none => 0
  | some params => params.countP isLineString

/-! ## Sequences of calls of the mutating members -/

/-- One call of a mutating member of `BusStop`, with its argument. -/
inductive Mutator where
  | addBusStop (primitive : Polygon3d)
  | removeBusStop (primitive : Polygon3d)
  | setStopLine (stopLine : LineString3d)
  | removeStopLine
  deriving DecidableEq, Repr

/-- Whether the call is a call of `addBusStop`. -/
def Mutator.isAddBusStop : Mutator → Bool
  | .addBusStop _ => true
  | _ => false

/-- The object after one call; `none` when the call has no defined result. -/
def BusStop.call (b : BusStop) : Mutator → Option BusStop
  | .addBusStop primitive => some (b.addBusStop primitive)
  | .removeBusStop primitive => (b.removeBusStop primitive).map Prod.snd
  | .setStopLine stopLine => some (b.setStopLine stopLine)
  | .removeStopLine => some b.removeStopLine

/-- The object after a sequence of calls, made from left to right; `none` when
one of the calls has no defined result. -/
def BusStop.calls (b : BusStop) : List Mutator → Option BusStop
  | [] => some b
  | c :: rest =>
    match b.call c with
    | none => none
    | some b' => BusStop.calls b' rest

/-! ## Sample primitives -/

def P1 : Polygon3d := ⟨1⟩

def P2 : Polygon3d := ⟨2⟩

def L1 : LineString3d := ⟨10, false⟩

def L2 : LineString3d := ⟨11, false⟩

/-- Sample sequence of calls without `removeStopLine`. -/
def sampleCalls : List Mutator :=
  [.addBusStop P2, .removeBusStop P2, .setStopLine L2, .removeBusStop P1, .addBusStop P1]

/-- The object the sample sequence of calls leads to from `make(1, [], [P1], L1)`. -/
def sampleAfterCalls : BusStop :=
  ⟨⟨1, [("refers", [.polygon P1]), ("ref_line", [.lineString L2]), ("bus_stop", [.polygon P1])],
    [("type", "regulatory_element"), ("subtype", "bus_stop")]⟩⟩

/-- Sample data as a map file may hold it: the Refers role mixes polygons with
other kinds, and a further role holds a polygon. -/
def sampleData : RegulatoryElementData :=
  ⟨5,
   [("refers", [.point ⟨20⟩, .polygon P1, .lineString L2, .polygon P2, .weakLanelet ⟨21⟩]),
    ("ref_line", [.lineString L1]),
    ("cancels", [.polygon ⟨3⟩])],
   [("type", "regulatory_element"), ("subtype", "bus_stop")]⟩

end autoware

/-! ## Lemmas on the library model -/

namespace HybridMap

theorem find_assign_self {V : Type} (m : HybridMap V) (k : String) (v : V) :
    find (assign m k v) k = some v := by
  induction m with
  | nil => simp [assign, find]
  | cons e rest ih =>
    obtain ⟨k', v'⟩ := e
    by_cases hk : k' = k
    · simp [assign, find, hk]
    · simp [assign, find, hk, ih]

theorem find_assign_of_ne {V : Type} (m : HybridMap V) (k k' : String) (v : V)
    (hne : k ≠ k') : find (assign m k v) k' = find m k' := by
  induction m with
  | nil => simp [assign, find, hne]
  | cons e rest ih =>
    obtain ⟨k0, v0⟩ := e
    by_cases hk : k0 = k
    · subst hk
      simp [assign, find, hne]
    · by_cases hk' : k0 = k'
      · subst hk'
        simp [assign, find, hk]
      · simp [assign, find, hk, hk', ih]

end HybridMap

namespace autoware

theorem filterMap_getPolygon3d_toRuleParameters (ps : Polygons3d) :
    (toRuleParameters ps).filterMap RuleParameter.getPolygon3d = ps := by
  induction ps with
  | nil => rfl
  | cons p rest ih =>
    simp only [toRuleParameters, List.map_cons] at ih ⊢
    simp [List.filterMap_cons, RuleParameter.getPolygon3d, ih]

theorem getConstPoly_eq_getPoly (m : RuleParameterMap) (role : String) :
    getConstPoly m role = getPoly m role := by
  simp [getConstPoly]

theorem constructBusStopData_parameters (id : Id) (attributes : AttributeMap)
    (ps : Polygons3d) (l : LineString3d) :
    (constructBusStopData id attributes ps l).parameters =
      [(RoleNameString.Refers, toRuleParameters ps),
       (RoleNameString.RefLine, [RuleParameter.lineString l])] := by
  simp [constructBusStopData, HybridMap.insert, HybridMap.find, HybridMap.assign,
    RoleNameString.Refers, RoleNameString.RefLine]

theorem getPoly_constructBusStopData (id : Id) (attributes : AttributeMap)
    (ps : Polygons3d) (l : LineString3d) :
    getPoly (constructBusStopData id attributes ps l).parameters RoleNameString.Refers = ps := by
  rw [constructBusStopData_parameters]
  simp [getPoly, HybridMap.find, filterMap_getPolygon3d_toRuleParameters]

theorem getParameters_constructBusStopData (id : Id) (attributes : AttributeMap)
    (ps : Polygons3d) (l : LineString3d) :
    getParameters (constructBusStopData id attributes ps l).parameters RoleNameString.RefLine
      = [l] := by
  rw [constructBusStopData_parameters]
  simp [getParameters, HybridMap.find, RoleNameString.Refers, RoleNameString.RefLine,
    RuleParameter.getLineString3d]

/-- The factory succeeds on a non-empty polygon list, with the constructed data
as the object. -/
theorem make_eq_ok (id : Id) (attributes : AttributeMap) (ps : Polygons3d)
    (l : LineString3d) (h : ps ≠ []) :
    BusStop.make id attributes ps l = .ok ⟨constructBusStopData id attributes ps l⟩ := by
  unfold BusStop.make BusStop.fromParts BusStop.fromData
  rw [getConstPoly_eq_getPoly, getPoly_constructBusStopData,
    getParameters_constructBusStopData]
  simp [h]

/-- C1: for every id, attribute map, non-empty polygon list `ps` and line string
`l`, `make` succeeds, and on the object it returns `busStops()` (both variants)
is exactly `ps` and `stopLine()` (both variants) is `l`. -/
theorem make_ok_busStops_stopLine (id : Id) (attributes : AttributeMap) (ps : Polygons3d)
    (l : LineString3d) (h : ps ≠ []) :
    ∃ b, BusStop.make id attributes ps l = .ok b ∧ b.busStops = ps ∧ b.busStopsConst = ps ∧
      b.stopLine = some l ∧ b.stopLineConst = some l := by
  refine ⟨⟨constructBusStopData id attributes ps l⟩, make_eq_ok id attributes ps l h, ?_, ?_, ?_, ?_⟩
  · exact getPoly_constructBusStopData id attributes ps l
  · simp only [BusStop.busStopsConst, BusStop.parameters, getConstPoly_eq_getPoly]
    exact getPoly_constructBusStopData id attributes ps l
  · simp [BusStop.stopLine, BusStop.parameters, getParameters_constructBusStopData]
  · simp [BusStop.stopLineConst, BusStop.parameters, getParameters_constructBusStopData]

theorem make_ok_busStops_stopLine_witness :
    [P1, P2] ≠ [] ∧
    ∃ b, BusStop.make 1 [("type", "x")] [P1, P2] L1 = .ok b ∧ b.busStops = [P1, P2] ∧
      b.busStopsConst = [P1, P2] ∧ b.stopLine = some L1 ∧ b.stopLineConst = some L1 :=
  ⟨by decide, make_ok_busStops_stopLine 1 [("type", "x")] [P1, P2] L1 (by decide)⟩

/-- The factory fails on the empty polygon list. -/
theorem make_nil_eq_error (id : Id) (attributes : AttributeMap) (l : LineString3d) :
    BusStop.make id attributes [] l = .error ⟨"No bus stop defined!"⟩ := by
  unfold BusStop.make BusStop.fromParts BusStop.fromData
  rw [getConstPoly_eq_getPoly, getPoly_constructBusStopData]
  simp

/-- C2: for every id, attribute map and line string, `make` with the empty
polygon list fails with `InvalidInputError` (message "No bus stop defined!"),
so no object is produced. -/
theorem make_nil_error (id : Id) (attributes : AttributeMap) (l : LineString3d) :
    BusStop.make id attributes [] l = .error ⟨"No bus stop defined!"⟩ ∧
      ¬ ∃ b, BusStop.make id attributes [] l = .ok b := by
  refine ⟨make_nil_eq_error id attributes l, ?_⟩
  rintro ⟨b, hb⟩
  rw [make_nil_eq_error] at hb
  cases hb

theorem filterMap_getPolygon3d_eq_nil (params : RuleParameters) :
    params.filterMap RuleParameter.getPolygon3d = [] ↔
      params.all (fun x => !isPolygon x) = true := by
  induction params with
  | nil => simp
  | cons x rest ih =>
    cases x <;> simp_all [List.filterMap_cons, RuleParameter.getPolygon3d, isPolygon]

theorem length_filterMap_getLineString3d (params : RuleParameters) :
    (params.filterMap RuleParameter.getLineString3d).length = params.countP isLineString := by
  induction params with
  | nil => simp
  | cons x rest ih =>
    cases x <;> simp_all [List.filterMap_cons, RuleParameter.getLineString3d, isLineString]

theorem getConstPoly_isEmpty (m : RuleParameterMap) (role : String) :
    (getConstPoly m role).isEmpty = holdsNoPolygon m role := by
  rw [getConstPoly_eq_getPoly]
  unfold getPoly holdsNoPolygon
  cases hfind : HybridMap.find m role with
  | none => rfl
  | some params =>
    have h := filterMap_getPolygon3d_eq_nil params
    rw [Bool.eq_iff_iff, List.isEmpty_iff]
    exact h

theorem getParameters_length (m : RuleParameterMap) (role : String) :
    (getParameters m role).length = lineStringCount m role := by
  unfold getParameters lineStringCount
  cases hfind : HybridMap.find m role with
  | none => rfl
  | some params => exact length_filterMap_getLineString3d params

/-- C3: the constructor from data fails (with `InvalidInputError`, the only
error it can raise) exactly when the Refers role holds no polygon entry or the
RefLine role does not hold exactly one line-string entry, and it succeeds, with
the data as the object, exactly in every other case. -/
theorem fromData_error_iff (d : RegulatoryElementData) :
    ((∃ e : InvalidInputError, BusStop.fromData d = .error e) ↔
      (holdsNoPolygon d.parameters RoleNameString.Refers = true ∨
        lineStringCount d.parameters RoleNameString.RefLine ≠ 1)) ∧
    (BusStop.fromData d = .ok ⟨d⟩ ↔
      ¬ (holdsNoPolygon d.parameters RoleNameString.Refers = true ∨
        lineStringCount d.parameters RoleNameString.RefLine ≠ 1)) := by
  unfold BusStop.fromData
  rw [getConstPoly_isEmpty, getParameters_length]
  by_cases h1 : holdsNoPolygon d.parameters RoleNameString.Refers = true
  · simp [h1]
  · by_cases h2 : lineStringCount d.parameters RoleNameString.RefLine = 1
    · simp [h1, h2]
    · simp [h1, h2]

/-- C4 (evaluation of the code): on the object of `make(1, [], [P1], L1)`,
`addBusStop(P2)` stores `P2` under the role "bus_stop" while `busStops()` reads
the Refers role, so `busStops()` is `[P1]` before and after the call and is not
the former result with `P2` appended. -/
theorem addBusStop_busStops_example :
    ∃ b, BusStop.make 1 [] [P1] L1 = .ok b ∧ b.busStops = [P1] ∧
      (b.addBusStop P2).busStops = [P1] ∧
      (b.addBusStop P2).busStops ≠ b.busStops ++ [P2] ∧
      P2 ∉ (b.addBusStop P2).busStops ∧
      (b.addBusStop P2).busStops.length = b.busStops.length ∧
      HybridMap.find (b.addBusStop P2).parameters "bus_stop" = some [RuleParameter.polygon P2] :=
  ⟨⟨constructBusStopData 1 [] [P1] L1⟩, rfl, by decide, by decide, by decide, by decide,
    by decide, by decide⟩

/-- C5 (evaluation of the code): on the object of `make(1, [], [P1], L1)`,
`removeBusStop(P1)` looks up the role "bus_stop", which is absent, and has no
defined result; once the role exists (after `addBusStop(P2)`),
`removeBusStop(P1)` returns false and `busStops()` still is `[P1]`. -/
theorem removeBusStop_present_example :
    ∃ b, BusStop.make 1 [] [P1] L1 = .ok b ∧ P1 ∈ b.busStops ∧
      b.removeBusStop P1 = none ∧
      P1 ∈ (b.addBusStop P2).busStops ∧
      ∃ b', (b.addBusStop P2).removeBusStop P1 = some (false, b') ∧ b'.busStops = [P1] :=
  ⟨⟨constructBusStopData 1 [] [P1] L1⟩, rfl, by decide, by decide, by decide,
    (⟨constructBusStopData 1 [] [P1] L1⟩ : BusStop).addBusStop P2, by decide, by decide⟩

/-- C6 (evaluation of the code): on the object of `make(1, [], [P1], L1)`,
`removeBusStop(P2)` for the absent polygon `P2` looks up the role "bus_stop",
which is absent, and has no defined result; after `addBusStop(P2)`, where `P2`
still does not occur in `busStops()`, `removeBusStop(P2)` returns true and
changes the object. -/
theorem removeBusStop_absent_example :
    ∃ b, BusStop.make 1 [] [P1] L1 = .ok b ∧ P2 ∉ b.busStops ∧
      b.removeBusStop P2 = none ∧
      P2 ∉ (b.addBusStop P2).busStops ∧
      ∃ b', (b.addBusStop P2).removeBusStop P2 = some (true, b') ∧ b' ≠ b.addBusStop P2 :=
  ⟨⟨constructBusStopData 1 [] [P1] L1⟩, rfl, by decide, by decide, by decide,
    ⟨⟨1, [("refers", [.polygon P1]), ("ref_line", [.lineString L1]), ("bus_stop", [])],
      [("type", "regulatory_element"), ("subtype", "bus_stop")]⟩⟩, by decide, by decide⟩

/-- C7: for every object, whatever its RefLine role held, and every line string
`l`, after `setStopLine(l)` the RefLine role holds exactly the one-element list
`[l]` and `stopLine()` (both variants) returns `l`. -/
theorem setStopLine_replaces (b : BusStop) (l : LineString3d) :
    HybridMap.find (b.setStopLine l).parameters RoleNameString.RefLine
        = some [RuleParameter.lineString l] ∧
      (b.setStopLine l).stopLine = some l ∧ (b.setStopLine l).stopLineConst = some l := by
  have h : HybridMap.find (b.setStopLine l).parameters RoleNameString.RefLine
      = some [RuleParameter.lineString l] := by
    simp [BusStop.setStopLine, BusStop.parameters, HybridMap.find_assign_self]
  refine ⟨h, ?_, ?_⟩
  · simp [BusStop.stopLine, getParameters, h, RuleParameter.getLineString3d]
  · simp [BusStop.stopLineConst, getParameters, h, RuleParameter.getLineString3d]

/-- C8: for every object, `removeStopLine()` (a total operation: it raises no
error) leaves the RefLine role as the empty list: the object holds zero stop
lines, `stopLine()` (both variants) has no defined result, and the constructor
from data fails on the data of the object with `InvalidInputError`. -/
theorem removeStopLine_violates_I2 (b : BusStop) :
    HybridMap.find (b.removeStopLine).parameters RoleNameString.RefLine = some [] ∧
      lineStringCount (b.removeStopLine).parameters RoleNameString.RefLine = 0 ∧
      (b.removeStopLine).stopLine = none ∧ (b.removeStopLine).stopLineConst = none ∧
      ∃ e : InvalidInputError, BusStop.fromData (b.removeStopLine).data = .error e := by
  have h : HybridMap.find (b.removeStopLine).parameters RoleNameString.RefLine = some [] := by
    simp [BusStop.removeStopLine, BusStop.parameters, HybridMap.find_assign_self]
  have hp : getParameters (b.removeStopLine).data.parameters RoleNameString.RefLine = [] := by
    have h' := h
    simp only [BusStop.parameters] at h'
    simp [getParameters, h']
  refine ⟨h, ?_, ?_, ?_, ?_⟩
  · simp [lineStringCount, h]
  · simp [BusStop.stopLine, getParameters, h]
  · simp [BusStop.stopLineConst, getParameters, h]
  · unfold BusStop.fromData
    rw [hp]
    by_cases hr : (getConstPoly (b.removeStopLine).data.parameters RoleNameString.Refers).isEmpty
        = true
    · exact ⟨⟨"No bus stop defined!"⟩, by simp [hr]⟩
    · exact ⟨⟨"There must be exactly one stopline defined!"⟩, by simp [hr]⟩

theorem constructBusStopData_id (id : Id) (attributes : AttributeMap) (ps : Polygons3d)
    (l : LineString3d) : (constructBusStopData id attributes ps l).id = id := rfl

theorem constructBusStopData_attributes (id : Id) (attributes : AttributeMap)
    (ps : Polygons3d) (l : LineString3d) :
    (constructBusStopData id attributes ps l).attributes =
      HybridMap.assign
        (HybridMap.assign attributes AttributeName.Type_ AttributeValueString.RegulatoryElement)
        AttributeName.Subtype "bus_stop" := rfl

/-- C9: for every id, attribute map `a`, non-empty polygon list and line string,
the object `make` returns has the supplied id, its "type" attribute is the
regulatory-element marker, its "subtype" attribute is "bus_stop" (whatever `a`
held for the two keys), and every other key has exactly the entry, or the
absence of entry, it has in `a`. -/
theorem make_id_attributes (id : Id) (a : AttributeMap) (ps : Polygons3d)
    (l : LineString3d) (h : ps ≠ []) :
    ∃ b, BusStop.make id a ps l = .ok b ∧ b.id = id ∧
      HybridMap.find b.attributes AttributeName.Type_
        = some AttributeValueString.RegulatoryElement ∧
      HybridMap.find b.attributes AttributeName.Subtype = some "bus_stop" ∧
      ∀ k, k ≠ AttributeName.Type_ → k ≠ AttributeName.Subtype →
        HybridMap.find b.attributes k = HybridMap.find a k := by
  refine ⟨⟨constructBusStopData id a ps l⟩, make_eq_ok id a ps l h, rfl, ?_, ?_, ?_⟩
  · simp only [BusStop.attributes, constructBusStopData_attributes]
    rw [HybridMap.find_assign_of_ne _ _ _ _ (by decide), HybridMap.find_assign_self]
  · simp only [BusStop.attributes, constructBusStopData_attributes]
    rw [HybridMap.find_assign_self]
  · intro k hk1 hk2
    simp only [BusStop.attributes, constructBusStopData_attributes]
    rw [HybridMap.find_assign_of_ne _ _ _ _ (Ne.symm hk2),
      HybridMap.find_assign_of_ne _ _ _ _ (Ne.symm hk1)]

theorem make_id_attributes_witness :
    [P1] ≠ [] ∧
    ∃ b, BusStop.make 7 [("subtype", "traffic_light"), ("speed", "30"), ("type", "lanelet")]
        [P1] L1 = .ok b ∧ b.id = 7 ∧
      HybridMap.find b.attributes AttributeName.Type_
        = some AttributeValueString.RegulatoryElement ∧
      HybridMap.find b.attributes AttributeName.Subtype = some "bus_stop" ∧
      ∀ k, k ≠ AttributeName.Type_ → k ≠ AttributeName.Subtype →
        HybridMap.find b.attributes k
          = HybridMap.find
              [("subtype", "traffic_light"), ("speed", "30"), ("type", "lanelet")] k :=
  ⟨by decide, make_id_attributes 7 _ [P1] L1 (by decide)⟩

/-- C10: round trip.  For every object `b` that `make(id, attributes, ps, l)`
returns, the constructor from data succeeds on the data of `b`, and the
object it yields has the same `busStops()` and `stopLine()` (both variants) as
`b`, namely `ps` and `l`, and the same id and attributes. -/
theorem fromData_make_roundtrip (id : Id) (attributes : AttributeMap) (ps : Polygons3d)
    (l : LineString3d) (b : BusStop) (h : BusStop.make id attributes ps l = .ok b) :
    ∃ b', BusStop.fromData b.data = .ok b' ∧
      b'.busStops = b.busStops ∧ b'.busStopsConst = b.busStopsConst ∧
      b'.stopLine = b.stopLine ∧ b'.stopLineConst = b.stopLineConst ∧
      b'.busStops = ps ∧ b'.stopLine = some l ∧
      b'.id = b.id ∧ b'.id = id ∧ b'.attributes = b.attributes := by
  have hps : ps ≠ [] := by
    rintro rfl
    rw [make_nil_eq_error] at h
    cases h
  have hb : b = ⟨constructBusStopData id attributes ps l⟩ := by
    rw [make_eq_ok id attributes ps l hps] at h
    cases h
    rfl
  subst hb
  refine ⟨⟨constructBusStopData id attributes ps l⟩, make_eq_ok id attributes ps l hps,
    rfl, rfl, rfl, rfl, ?_, ?_, rfl, rfl, rfl⟩
  · exact getPoly_constructBusStopData id attributes ps l
  · simp [BusStop.stopLine, BusStop.parameters, getParameters_constructBusStopData]

theorem fromData_make_roundtrip_witness :
    BusStop.make 1 [] [P1, P2] L1 = .ok ⟨constructBusStopData 1 [] [P1, P2] L1⟩ ∧
    ∃ b', BusStop.fromData (⟨constructBusStopData 1 [] [P1, P2] L1⟩ : BusStop).data = .ok b' ∧
      b'.busStops = (⟨constructBusStopData 1 [] [P1, P2] L1⟩ : BusStop).busStops ∧
      b'.busStopsConst = (⟨constructBusStopData 1 [] [P1, P2] L1⟩ : BusStop).busStopsConst ∧
      b'.stopLine = (⟨constructBusStopData 1 [] [P1, P2] L1⟩ : BusStop).stopLine ∧
      b'.stopLineConst = (⟨constructBusStopData 1 [] [P1, P2] L1⟩ : BusStop).stopLineConst ∧
      b'.busStops = [P1, P2] ∧ b'.stopLine = some L1 ∧
      b'.id = (⟨constructBusStopData 1 [] [P1, P2] L1⟩ : BusStop).id ∧ b'.id = 1 ∧
      b'.attributes = (⟨constructBusStopData 1 [] [P1, P2] L1⟩ : BusStop).attributes :=
  ⟨rfl, fromData_make_roundtrip 1 [] [P1, P2] L1 _ rfl⟩

end autoware

/-! ## Further lemmas on the library model -/

namespace HybridMap

theorem assign_eq_self {V : Type} (m : HybridMap V) (k : String) (v : V)
    (h : find m k = some v) : assign m k v = m := by
  induction m with
  | nil => simp [find] at h
  | cons e rest ih =>
    obtain ⟨k0, v0⟩ := e
    by_cases hk : k0 = k
    · simp only [find, hk, if_true, Option.some.injEq] at h
      simp [assign, hk, h]
    · simp only [find, hk, if_false] at h
      simp [assign, hk, ih h]

theorem assign_assign {V : Type} (m : HybridMap V) (k : String) (v w : V) :
    assign (assign m k v) k w = assign m k w := by
  induction m with
  | nil => simp [assign]
  | cons e rest ih =>
    obtain ⟨k0, v0⟩ := e
    by_cases hk : k0 = k
    · simp [assign, hk]
    · simp [assign, hk, ih]

end HybridMap

namespace autoware

/-! ## The mutating members, role by role -/

theorem addBusStop_parameters (b : BusStop) (p : Polygon3d) :
    (b.addBusStop p).parameters =
      HybridMap.assign b.parameters "bus_stop"
        ((HybridMap.find b.parameters "bus_stop").getD [] ++ [RuleParameter.polygon p]) := by
  unfold BusStop.addBusStop HybridMap.index
  cases h : HybridMap.find b.parameters "bus_stop" with
  | none => simp [BusStop.parameters, HybridMap.assign_assign]
  | some member => simp [BusStop.parameters]

theorem addBusStop_id (b : BusStop) (p : Polygon3d) : (b.addBusStop p).id = b.id := by
  unfold BusStop.addBusStop HybridMap.index
  cases h : HybridMap.find b.parameters "bus_stop" <;> rfl

theorem addBusStop_attributes (b : BusStop) (p : Polygon3d) :
    (b.addBusStop p).attributes = b.attributes := by
  unfold BusStop.addBusStop HybridMap.index
  cases h : HybridMap.find b.parameters "bus_stop" <;> rfl

theorem find_addBusStop_self (b : BusStop) (p : Polygon3d) :
    HybridMap.find (b.addBusStop p).parameters "bus_stop" =
      some ((HybridMap.find b.parameters "bus_stop").getD [] ++ [RuleParameter.polygon p]) := by
  rw [addBusStop_parameters, HybridMap.find_assign_self]

theorem find_addBusStop_of_ne (b : BusStop) (p : Polygon3d) (k : String)
    (hk : k ≠ "bus_stop") :
    HybridMap.find (b.addBusStop p).parameters k = HybridMap.find b.parameters k := by
  rw [addBusStop_parameters, HybridMap.find_assign_of_ne _ _ _ _ (Ne.symm hk)]

/-- The call `removeBusStop` when the role "bus_stop" is present: the flag tells
whether the polygon occurs in the list of the role, and the list loses the
first entry equal to it. -/
theorem removeBusStop_of_find (b : BusStop) (p : Polygon3d) (member : RuleParameters)
    (h : HybridMap.find b.parameters "bus_stop" = some member) :
    b.removeBusStop p =
      some (decide (RuleParameter.polygon p ∈ member),
        ⟨⟨b.data.id,
          HybridMap.assign b.parameters "bus_stop" (member.erase (RuleParameter.polygon p)),
          b.data.attributes⟩⟩) := by
  unfold BusStop.removeBusStop findAndErase
  rw [h]
  by_cases hp : RuleParameter.polygon p ∈ member
  · simp [hp]
  · simp [hp, List.erase_of_not_mem hp]

theorem removeBusStop_of_find_none (b : BusStop) (p : Polygon3d)
    (h : HybridMap.find b.parameters "bus_stop" = none) : b.removeBusStop p = none := by
  unfold BusStop.removeBusStop
  rw [h]

theorem find_setStopLine_of_ne (b : BusStop) (l : LineString3d) (k : String)
    (hk : k ≠ RoleNameString.RefLine) :
    HybridMap.find (b.setStopLine l).parameters k = HybridMap.find b.parameters k := by
  simp only [BusStop.setStopLine, BusStop.parameters]
  rw [HybridMap.find_assign_of_ne _ _ _ _ (Ne.symm hk)]

theorem find_removeStopLine_of_ne (b : BusStop) (k : String)
    (hk : k ≠ RoleNameString.RefLine) :
    HybridMap.find (b.removeStopLine).parameters k = HybridMap.find b.parameters k := by
  simp only [BusStop.removeStopLine, BusStop.parameters]
  rw [HybridMap.find_assign_of_ne _ _ _ _ (Ne.symm hk)]

/-- The results of `busStops()` depend on the Refers role only. -/
theorem busStops_congr (b b' : BusStop)
    (h : HybridMap.find b'.parameters RoleNameString.Refers
      = HybridMap.find b.parameters RoleNameString.Refers) :
    b'.busStops = b.busStops ∧ b'.busStopsConst = b.busStopsConst := by
  simp [BusStop.busStops, BusStop.busStopsConst, getConstPoly, getPoly, h]

/-- The results of `stopLine()` depend on the RefLine role only. -/
theorem stopLine_congr (b b' : BusStop)
    (h : HybridMap.find b'.parameters RoleNameString.RefLine
      = HybridMap.find b.parameters RoleNameString.RefLine) :
    b'.stopLine = b.stopLine ∧ b'.stopLineConst = b.stopLineConst ∧
      lineStringCount b'.parameters RoleNameString.RefLine
        = lineStringCount b.parameters RoleNameString.RefLine := by
  simp [BusStop.stopLine, BusStop.stopLineConst, getParameters, lineStringCount, h]

/-! ## Reading the bus stops -/

theorem map_polygon_filterMap_getPolygon3d (params : RuleParameters) :
    (params.filterMap RuleParameter.getPolygon3d).map RuleParameter.polygon
      = params.filter isPolygon := by
  induction params with
  | nil => rfl
  | cons x rest ih =>
    cases x <;> simp_all [List.filterMap_cons, RuleParameter.getPolygon3d, isPolygon]

theorem mem_filterMap_getPolygon3d (params : RuleParameters) (p : Polygon3d) :
    p ∈ params.filterMap RuleParameter.getPolygon3d ↔ RuleParameter.polygon p ∈ params := by
  induction params with
  | nil => simp
  | cons x rest ih =>
    cases x <;> simp_all [List.filterMap_cons, RuleParameter.getPolygon3d]

/-- The constructor from data, when it succeeds, yields the object on the data. -/
theorem fromData_ok_eq (d : RegulatoryElementData) (b : BusStop)
    (h : BusStop.fromData d = .ok b) : b = ⟨d⟩ := by
  unfold BusStop.fromData at h
  split at h
  · cases h
  · split at h
    · cases h
    · cases h
      rfl

/-- C11: for every object the constructor from data builds from `d`,
`busStops()` (both variants) is exactly the subsequence of the polygon-typed
entries of the Refers list of `d`, in stored order: entries of other kinds are
skipped, a polygon occurs in the result only if it occurs under Refers, the
result is the same for every object whose Refers role is the same whatever its
other roles hold, and it is empty on an object whose Refers role is absent. -/
theorem busStops_polygon_entries (d : RegulatoryElementData) (b : BusStop)
    (h : BusStop.fromData d = .ok b) :
    b.busStops.map RuleParameter.polygon
        = ((HybridMap.find d.parameters RoleNameString.Refers).getD []).filter isPolygon ∧
      b.busStopsConst = b.busStops ∧
      (∀ p, p ∈ b.busStops ↔
        ∃ params, HybridMap.find d.parameters RoleNameString.Refers = some params ∧
          RuleParameter.polygon p ∈ params) ∧
      (∀ b0 : BusStop,
        HybridMap.find b0.parameters RoleNameString.Refers
          = HybridMap.find d.parameters RoleNameString.Refers →
        b0.busStops = b.busStops ∧ b0.busStopsConst = b.busStopsConst) ∧
      (∀ b0 : BusStop, HybridMap.find b0.parameters RoleNameString.Refers = none →
        b0.busStops = [] ∧ b0.busStopsConst = []) := by
  have hb := fromData_ok_eq d b h
  subst hb
  refine ⟨?_, ?_, ?_, ?_, ?_⟩
  · simp only [BusStop.busStops, BusStop.parameters, getPoly]
    cases hfind : HybridMap.find d.parameters RoleNameString.Refers with
    | none => rfl
    | some params => exact map_polygon_filterMap_getPolygon3d params
  · exact getConstPoly_eq_getPoly _ _
  · intro p
    simp only [BusStop.busStops, BusStop.parameters, getPoly]
    cases hfind : HybridMap.find d.parameters RoleNameString.Refers with
    | none => simp
    | some params =>
      rw [mem_filterMap_getPolygon3d]
      simp
  · intro b0 h0
    exact busStops_congr ⟨d⟩ b0 h0
  · intro b0 h0
    simp [BusStop.busStops, BusStop.busStopsConst, getConstPoly, getPoly, h0]

theorem busStops_polygon_entries_witness :
    BusStop.fromData sampleData = .ok ⟨sampleData⟩ ∧
      (⟨sampleData⟩ : BusStop).busStops = [P1, P2] ∧
      (⟨sampleData⟩ : BusStop).busStops.map RuleParameter.polygon
        = ((HybridMap.find sampleData.parameters RoleNameString.Refers).getD []).filter
            isPolygon :=
  ⟨rfl, by decide, (busStops_polygon_entries sampleData ⟨sampleData⟩ rfl).1⟩

/-! ## Frame of the mutating members -/

/-- What a call of `removeBusStop` with a defined result changes: the role
"bus_stop" was present, its list loses the first entry equal to the polygon,
the flag tells whether there was one, and nothing else changes. -/
theorem removeBusStop_some (b : BusStop) (p : Polygon3d) (r : Bool) (b' : BusStop)
    (h : b.removeBusStop p = some (r, b')) :
    b'.id = b.id ∧ b'.attributes = b.attributes ∧
      (∀ k, k ≠ "bus_stop" →
        HybridMap.find b'.parameters k = HybridMap.find b.parameters k) ∧
      ∃ member, HybridMap.find b.parameters "bus_stop" = some member ∧
        HybridMap.find b'.parameters "bus_stop"
          = some (member.erase (RuleParameter.polygon p)) ∧
        r = decide (RuleParameter.polygon p ∈ member) := by
  cases hfind : HybridMap.find b.parameters "bus_stop" with
  | none =>
    rw [removeBusStop_of_find_none b p hfind] at h
    cases h
  | some member =>
    rw [removeBusStop_of_find b p member hfind] at h
    simp only [Option.some.injEq, Prod.mk.injEq] at h
    obtain ⟨hr, hb⟩ := h
    subst hb
    refine ⟨rfl, rfl, ?_, member, rfl, ?_, hr.symm⟩
    · intro k hk
      simp only [BusStop.parameters]
      rw [HybridMap.find_assign_of_ne _ _ _ _ (Ne.symm hk)]
    · simp only [BusStop.parameters]
      rw [HybridMap.find_assign_self]

/-- Frame of the mutating members where they have a result.  `addBusStop`,
`setStopLine`, `removeStopLine` and every call of `removeBusStop` with a
defined result (there is one whenever the role "bus_stop" is present) leave
the id and the attribute map unchanged; `setStopLine` and `removeStopLine`
leave `busStops()` unchanged; `addBusStop` and `removeBusStop` leave the
RefLine role, hence `stopLine()`, unchanged. -/
theorem mutators_frame (b : BusStop) (p : Polygon3d) (l : LineString3d) :
    ((b.addBusStop p).id = b.id ∧ (b.addBusStop p).attributes = b.attributes ∧
      HybridMap.find (b.addBusStop p).parameters RoleNameString.RefLine
        = HybridMap.find b.parameters RoleNameString.RefLine ∧
      (b.addBusStop p).stopLine = b.stopLine ∧
      (b.addBusStop p).stopLineConst = b.stopLineConst) ∧
    ((b.setStopLine l).id = b.id ∧ (b.setStopLine l).attributes = b.attributes ∧
      (b.setStopLine l).busStops = b.busStops ∧
      (b.setStopLine l).busStopsConst = b.busStopsConst) ∧
    ((b.removeStopLine).id = b.id ∧ (b.removeStopLine).attributes = b.attributes ∧
      (b.removeStopLine).busStops = b.busStops ∧
      (b.removeStopLine).busStopsConst = b.busStopsConst) ∧
    (∀ r b', b.removeBusStop p = some (r, b') →
      b'.id = b.id ∧ b'.attributes = b.attributes ∧
      HybridMap.find b'.parameters RoleNameString.RefLine
        = HybridMap.find b.parameters RoleNameString.RefLine ∧
      b'.stopLine = b.stopLine ∧ b'.stopLineConst = b.stopLineConst) ∧
    (∀ member, HybridMap.find b.parameters "bus_stop" = some member →
      ∃ r b', b.removeBusStop p = some (r, b')) := by
  refine ⟨?_, ?_, ?_, ?_, ?_⟩
  · have hfind := find_addBusStop_of_ne b p RoleNameString.RefLine (by decide)
    have hs := stopLine_congr b (b.addBusStop p) hfind
    exact ⟨addBusStop_id b p, addBusStop_attributes b p, hfind, hs.1, hs.2.1⟩
  · have hfind := find_setStopLine_of_ne b l RoleNameString.Refers (by decide)
    have hs := busStops_congr b (b.setStopLine l) hfind
    exact ⟨rfl, rfl, hs.1, hs.2⟩
  · have hfind := find_removeStopLine_of_ne b RoleNameString.Refers (by decide)
    have hs := busStops_congr b (b.removeStopLine) hfind
    exact ⟨rfl, rfl, hs.1, hs.2⟩
  · intro r b' h
    obtain ⟨hid, hattr, hframe, _⟩ := removeBusStop_some b p r b' h
    have hfind := hframe RoleNameString.RefLine (by decide)
    have hs := stopLine_congr b b' hfind
    exact ⟨hid, hattr, hfind, hs.1, hs.2.1⟩
  · intro member hfind
    exact ⟨_, _, removeBusStop_of_find b p member hfind⟩

theorem mutators_frame_witness :
    ∃ b b', BusStop.make 1 [("speed", "30")] [P1] L1 = .ok b ∧
      (b.addBusStop P2).removeBusStop P2 = some (true, b') ∧
      b'.id = 1 ∧ b'.attributes = b.attributes ∧ b'.stopLine = some L1 :=
  ⟨⟨constructBusStopData 1 [("speed", "30")] [P1] L1⟩,
    ⟨⟨1, [("refers", [.polygon P1]), ("ref_line", [.lineString L1]), ("bus_stop", [])],
      [("speed", "30"), ("type", "regulatory_element"), ("subtype", "bus_stop")]⟩⟩,
    rfl, by decide,
    ((mutators_frame
        ((⟨constructBusStopData 1 [("speed", "30")] [P1] L1⟩ : BusStop).addBusStop P2) P2
        L1).2.2.2.1 true _ (by decide)).1,
    by decide, by decide⟩

/-! ## Sequences of calls -/

theorem calls_cons (b : BusStop) (c : Mutator) (rest : List Mutator) (b1 : BusStop)
    (h : b.calls (c :: rest) = some b1) :
    ∃ b', b.call c = some b' ∧ b'.calls rest = some b1 := by
  unfold BusStop.calls at h
  cases hc : b.call c with
  | none => simp [hc] at h
  | some b' =>
    simp only [hc] at h
    exact ⟨b', rfl, h⟩

/-- A call with a defined result changes no role other than "bus_stop" and
RefLine. -/
theorem call_find_of_ne (b b' : BusStop) (c : Mutator) (h : b.call c = some b')
    (k : String) (hk1 : k ≠ "bus_stop") (hk2 : k ≠ RoleNameString.RefLine) :
    HybridMap.find b'.parameters k = HybridMap.find b.parameters k := by
  cases c with
  | addBusStop p =>
    simp only [BusStop.call, Option.some.injEq] at h
    subst h
    exact find_addBusStop_of_ne b p k hk1
  | removeBusStop p =>
    simp only [BusStop.call, Option.map_eq_some', Prod.exists, exists_eq_right] at h
    obtain ⟨r, hr⟩ := h
    exact (removeBusStop_some b p r b' hr).2.2.1 k hk1
  | setStopLine l =>
    simp only [BusStop.call, Option.some.injEq] at h
    subst h
    exact find_setStopLine_of_ne b l k hk2
  | removeStopLine =>
    simp only [BusStop.call, Option.some.injEq] at h
    subst h
    exact find_removeStopLine_of_ne b k hk2

/-- No sequence of calls changes the Refers role. -/
theorem calls_find_refers (ops : List Mutator) (b b1 : BusStop)
    (h : b.calls ops = some b1) :
    HybridMap.find b1.parameters RoleNameString.Refers
      = HybridMap.find b.parameters RoleNameString.Refers := by
  induction ops generalizing b with
  | nil =>
    simp only [BusStop.calls, Option.some.injEq] at h
    subst h
    rfl
  | cons c rest ih =>
    obtain ⟨b', hc, hrest⟩ := calls_cons b c rest b1 h
    rw [ih b' hrest]
    exact call_find_of_ne b b' c hc RoleNameString.Refers (by decide) (by decide)

/-- C13 (evaluation of the code): on the object of `make(1, [], [P1], L1)`,
`busStops()` is `[P1]`, `removeBusStop(P1)` has no defined result (the role
"bus_stop" is absent), and after every sequence of calls of the mutating
members with a defined result `busStops()` still is `[P1]`: no state with
an empty `busStops()` is reached. -/
theorem removeBusStop_keeps_busStops_example :
    ∃ b, BusStop.make 1 [] [P1] L1 = .ok b ∧ b.busStops = [P1] ∧
      b.removeBusStop P1 = none ∧
      b.calls [Mutator.removeBusStop P1] = none ∧
      ∀ ops b1, b.calls ops = some b1 → b1.busStops = [P1] ∧ b1.busStops ≠ [] := by
  refine ⟨⟨constructBusStopData 1 [] [P1] L1⟩, rfl, by decide, by decide, by decide, ?_⟩
  intro ops b1 h
  have hb := (busStops_congr _ b1 (calls_find_refers ops _ b1 h)).1
  have h0 : (⟨constructBusStopData 1 [] [P1] L1⟩ : BusStop).busStops = [P1] := by decide
  rw [h0] at hb
  rw [hb]
  exact ⟨rfl, by decide⟩

/-! ## The stop line stays defined -/

theorem make_eq_fromData (id : Id) (attributes : AttributeMap) (ps : Polygons3d)
    (l : LineString3d) :
    BusStop.make id attributes ps l
      = BusStop.fromData (constructBusStopData id attributes ps l) := rfl

theorem lineStringCount_fromData (d : RegulatoryElementData) (b : BusStop)
    (h : BusStop.fromData d = .ok b) :
    lineStringCount b.parameters RoleNameString.RefLine = 1 := by
  have hb := fromData_ok_eq d b h
  subst hb
  unfold BusStop.fromData at h
  rw [getParameters_length] at h
  by_contra hne
  replace hne : ¬ lineStringCount d.parameters RoleNameString.RefLine = 1 := hne
  split at h
  · cases h
  · simp [hne] at h

theorem lineStringCount_setStopLine (b : BusStop) (l : LineString3d) :
    lineStringCount (b.setStopLine l).parameters RoleNameString.RefLine = 1 := by
  have h : HybridMap.find (b.setStopLine l).parameters RoleNameString.RefLine
      = some [RuleParameter.lineString l] := by
    simp [BusStop.setStopLine, BusStop.parameters, HybridMap.find_assign_self]
  simp [lineStringCount, h, isLineString]

/-- A call other than `removeStopLine` keeps one line string under RefLine. -/
theorem call_lineStringCount (b b' : BusStop) (c : Mutator) (h : b.call c = some b')
    (hc : c ≠ Mutator.removeStopLine)
    (hb : lineStringCount b.parameters RoleNameString.RefLine = 1) :
    lineStringCount b'.parameters RoleNameString.RefLine = 1 := by
  cases c with
  | addBusStop p =>
    simp only [BusStop.call, Option.some.injEq] at h
    subst h
    rw [(stopLine_congr b _ (find_addBusStop_of_ne b p RoleNameString.RefLine
      (by decide))).2.2]
    exact hb
  | removeBusStop p =>
    simp only [BusStop.call, Option.map_eq_some', Prod.exists, exists_eq_right] at h
    obtain ⟨r, hr⟩ := h
    rw [(stopLine_congr b b' ((removeBusStop_some b p r b' hr).2.2.1 RoleNameString.RefLine
      (by decide))).2.2]
    exact hb
  | setStopLine l =>
    simp only [BusStop.call, Option.some.injEq] at h
    subst h
    exact lineStringCount_setStopLine b l
  | removeStopLine => exact absurd rfl hc

theorem calls_lineStringCount (ops : List Mutator) (b b1 : BusStop)
    (h : b.calls ops = some b1) (hops : Mutator.removeStopLine ∉ ops)
    (hb : lineStringCount b.parameters RoleNameString.RefLine = 1) :
    lineStringCount b1.parameters RoleNameString.RefLine = 1 := by
  induction ops generalizing b with
  | nil =>
    simp only [BusStop.calls, Option.some.injEq] at h
    subst h
    exact hb
  | cons c rest ih =>
    obtain ⟨b', hc, hrest⟩ := calls_cons b c rest b1 h
    have hne : c ≠ Mutator.removeStopLine := by
      intro hceq
      exact hops (by simp [hceq])
    have hrest' : Mutator.removeStopLine ∉ rest := by
      intro hmem
      exact hops (List.mem_cons_of_mem c hmem)
    exact ih b' hrest hrest' (call_lineStringCount b b' c hc hne hb)

/-- With one line string under RefLine, `stopLine()` returns it. -/
theorem stopLine_of_lineStringCount (b : BusStop)
    (hb : lineStringCount b.parameters RoleNameString.RefLine = 1) :
    ∃ l, getParameters b.parameters RoleNameString.RefLine = [l] ∧
      b.stopLine = some l ∧ b.stopLineConst = some l := by
  rw [← getParameters_length] at hb
  obtain ⟨l, hl⟩ := List.length_eq_one.mp hb
  exact ⟨l, hl, by simp [BusStop.stopLine, hl], by simp [BusStop.stopLineConst, hl]⟩

/-- C14: on every object `b0` that `make` or the constructor from data returns,
and on every object `b` reached from it by a finite sequence of `addBusStop`,
`removeBusStop` (each with a defined result) and `setStopLine` calls, the
RefLine role holds exactly one line string, which `stopLine()` (both variants)
returns: the front of an empty list is never taken. -/
theorem stopLine_defined_invariant (b0 : BusStop) (ops : List Mutator) (b : BusStop)
    (hinit : (∃ id a ps l, BusStop.make id a ps l = .ok b0) ∨
      (∃ d, BusStop.fromData d = .ok b0))
    (hops : Mutator.removeStopLine ∉ ops)
    (hrun : b0.calls ops = some b) :
    lineStringCount b.parameters RoleNameString.RefLine = 1 ∧
      ∃ l, getParameters b.parameters RoleNameString.RefLine = [l] ∧
        b.stopLine = some l ∧ b.stopLineConst = some l := by
  have h0 : lineStringCount b0.parameters RoleNameString.RefLine = 1 := by
    rcases hinit with ⟨id, a, ps, l, h⟩ | ⟨d, h⟩
    · rw [make_eq_fromData] at h
      exact lineStringCount_fromData _ b0 h
    · exact lineStringCount_fromData d b0 h
  have h1 := calls_lineStringCount ops b0 b hrun hops h0
  exact ⟨h1, stopLine_of_lineStringCount b h1⟩

theorem stopLine_defined_invariant_witness :
    ((∃ id a ps l, BusStop.make id a ps l = .ok ⟨constructBusStopData 1 [] [P1] L1⟩) ∨
      (∃ d, BusStop.fromData d = .ok ⟨constructBusStopData 1 [] [P1] L1⟩)) ∧
    Mutator.removeStopLine ∉ sampleCalls ∧
    (⟨constructBusStopData 1 [] [P1] L1⟩ : BusStop).calls sampleCalls = some sampleAfterCalls ∧
    sampleAfterCalls.stopLine = some L2 ∧
    lineStringCount sampleAfterCalls.parameters RoleNameString.RefLine = 1 ∧
      ∃ l, getParameters sampleAfterCalls.parameters RoleNameString.RefLine = [l] ∧
        sampleAfterCalls.stopLine = some l ∧ sampleAfterCalls.stopLineConst = some l :=
  ⟨Or.inl ⟨1, [], [P1], L1, rfl⟩, by decide, by decide, by decide,
    stopLine_defined_invariant ⟨constructBusStopData 1 [] [P1] L1⟩ sampleCalls sampleAfterCalls
      (Or.inl ⟨1, [], [P1], L1, rfl⟩) (by decide) (by decide)⟩

/-! ## The role "bus_stop" -/

/-- C15: for every object and polygon `p`, `addBusStop(p)` appends `p` at the
end of the list stored under the role "bus_stop" (the list is `[p]` when the
role was absent) and leaves the list of every other role unchanged, in
particular the Refers role, which `busStops()` reads, and the RefLine role. -/
theorem addBusStop_appends_under_bus_stop (b : BusStop) (p : Polygon3d) :
    (HybridMap.find b.parameters "bus_stop" = none →
      HybridMap.find (b.addBusStop p).parameters "bus_stop"
        = some [RuleParameter.polygon p]) ∧
    (∀ member, HybridMap.find b.parameters "bus_stop" = some member →
      HybridMap.find (b.addBusStop p).parameters "bus_stop"
        = some (member ++ [RuleParameter.polygon p])) ∧
    (∀ k, k ≠ "bus_stop" →
      HybridMap.find (b.addBusStop p).parameters k = HybridMap.find b.parameters k) ∧
    HybridMap.find (b.addBusStop p).parameters RoleNameString.Refers
      = HybridMap.find b.parameters RoleNameString.Refers ∧
    HybridMap.find (b.addBusStop p).parameters RoleNameString.RefLine
      = HybridMap.find b.parameters RoleNameString.RefLine ∧
    (b.addBusStop p).busStops = b.busStops ∧
    (b.addBusStop p).busStopsConst = b.busStopsConst := by
  have hrefers := find_addBusStop_of_ne b p RoleNameString.Refers (by decide)
  have hs := busStops_congr b (b.addBusStop p) hrefers
  refine ⟨?_, ?_, find_addBusStop_of_ne b p, hrefers,
    find_addBusStop_of_ne b p RoleNameString.RefLine (by decide), hs.1, hs.2⟩
  · intro h
    rw [find_addBusStop_self, h]
    rfl
  · intro member h
    rw [find_addBusStop_self, h]
    rfl

theorem addBusStop_appends_under_bus_stop_witness :
    HybridMap.find sampleAfterCalls.parameters "bus_stop" = some [RuleParameter.polygon P1] ∧
    HybridMap.find (sampleAfterCalls.addBusStop P2).parameters "bus_stop"
      = some ([RuleParameter.polygon P1] ++ [RuleParameter.polygon P2]) ∧
    HybridMap.find (⟨sampleData⟩ : BusStop).parameters "bus_stop" = none ∧
    HybridMap.find ((⟨sampleData⟩ : BusStop).addBusStop P2).parameters "bus_stop"
      = some [RuleParameter.polygon P2] :=
  ⟨by decide,
    (addBusStop_appends_under_bus_stop sampleAfterCalls P2).2.1 _ (by decide),
    by decide,
    (addBusStop_appends_under_bus_stop ⟨sampleData⟩ P2).1 (by decide)⟩

theorem find_bus_stop_call_of_absent (b b' : BusStop) (c : Mutator)
    (h : b.call c = some b') (hc : c.isAddBusStop = false)
    (hb : HybridMap.find b.parameters "bus_stop" = none) :
    HybridMap.find b'.parameters "bus_stop" = none := by
  cases c with
  | addBusStop p => simp [Mutator.isAddBusStop] at hc
  | removeBusStop p =>
    simp only [BusStop.call, Option.map_eq_some', Prod.exists, exists_eq_right] at h
    obtain ⟨r, hr⟩ := h
    rw [removeBusStop_of_find_none b p hb] at hr
    cases hr
  | setStopLine l =>
    simp only [BusStop.call, Option.some.injEq] at h
    subst h
    rw [find_setStopLine_of_ne b l "bus_stop" (by decide)]
    exact hb
  | removeStopLine =>
    simp only [BusStop.call, Option.some.injEq] at h
    subst h
    rw [find_removeStopLine_of_ne b "bus_stop" (by decide)]
    exact hb

theorem find_bus_stop_call_of_present (b b' : BusStop) (c : Mutator)
    (h : b.call c = some b') (hb : HybridMap.find b.parameters "bus_stop" ≠ none) :
    HybridMap.find b'.parameters "bus_stop" ≠ none := by
  cases c with
  | addBusStop p =>
    simp only [BusStop.call, Option.some.injEq] at h
    subst h
    rw [find_addBusStop_self]
    simp
  | removeBusStop p =>
    simp only [BusStop.call, Option.map_eq_some', Prod.exists, exists_eq_right] at h
    obtain ⟨r, hr⟩ := h
    obtain ⟨_, _, _, member, _, hfind, _⟩ := removeBusStop_some b p r b' hr
    rw [hfind]
    simp
  | setStopLine l =>
    simp only [BusStop.call, Option.some.injEq] at h
    subst h
    rw [find_setStopLine_of_ne b l "bus_stop" (by decide)]
    exact hb
  | removeStopLine =>
    simp only [BusStop.call, Option.some.injEq] at h
    subst h
    rw [find_removeStopLine_of_ne b "bus_stop" (by decide)]
    exact hb

theorem find_bus_stop_calls_of_absent (ops : List Mutator) (b b1 : BusStop)
    (h : b.calls ops = some b1) (hops : ∀ c ∈ ops, c.isAddBusStop = false)
    (hb : HybridMap.find b.parameters "bus_stop" = none) :
    HybridMap.find b1.parameters "bus_stop" = none := by
  induction ops generalizing b with
  | nil =>
    simp only [BusStop.calls, Option.some.injEq] at h
    subst h
    exact hb
  | cons c rest ih =>
    obtain ⟨b', hc, hrest⟩ := calls_cons b c rest b1 h
    exact ih b' hrest (fun c' hc' => hops c' (List.mem_cons_of_mem c hc'))
      (find_bus_stop_call_of_absent b b' c hc (hops c (List.mem_cons_self c rest)) hb)

theorem find_bus_stop_calls_of_present (ops : List Mutator) (b b1 : BusStop)
    (h : b.calls ops = some b1) (hb : HybridMap.find b.parameters "bus_stop" ≠ none) :
    HybridMap.find b1.parameters "bus_stop" ≠ none := by
  induction ops generalizing b with
  | nil =>
    simp only [BusStop.calls, Option.some.injEq] at h
    subst h
    exact hb
  | cons c rest ih =>
    obtain ⟨b', hc, hrest⟩ := calls_cons b c rest b1 h
    exact ih b' hrest (find_bus_stop_call_of_present b b' c hc hb)

theorem find_bus_stop_calls_of_addBusStop (ops : List Mutator) (b b1 : BusStop)
    (h : b.calls ops = some b1) (hops : ∃ c ∈ ops, c.isAddBusStop = true) :
    HybridMap.find b1.parameters "bus_stop" ≠ none := by
  induction ops generalizing b with
  | nil =>
    obtain ⟨c, hc, _⟩ := hops
    cases hc
  | cons c rest ih =>
    obtain ⟨b', hc, hrest⟩ := calls_cons b c rest b1 h
    by_cases hadd : c.isAddBusStop = true
    · cases c with
      | addBusStop p =>
        simp only [BusStop.call, Option.some.injEq] at hc
        subst hc
        apply find_bus_stop_calls_of_present rest _ b1 hrest
        rw [find_addBusStop_self]
        simp
      | removeBusStop p => simp [Mutator.isAddBusStop] at hadd
      | setStopLine l => simp [Mutator.isAddBusStop] at hadd
      | removeStopLine => simp [Mutator.isAddBusStop] at hadd
    · apply ih b' hrest
      obtain ⟨c', hc', hc'add⟩ := hops
      rcases List.mem_cons.mp hc' with heq | hmem
      · subst heq
        exact absurd hc'add hadd
      · exact ⟨c', hmem, hc'add⟩

theorem removeBusStop_defined_of_present (b : BusStop) (p : Polygon3d)
    (hb : HybridMap.find b.parameters "bus_stop" ≠ none) :
    ∃ r b', b.removeBusStop p = some (r, b') := by
  cases hfind : HybridMap.find b.parameters "bus_stop" with
  | none => exact absurd hfind hb
  | some member => exact ⟨_, _, removeBusStop_of_find b p member hfind⟩

/-- C16: on every object `make` returns, the role map holds exactly the roles
Refers and RefLine, so the lookup of "bus_stop" in `removeBusStop` finds no
entry and the call has no defined result; this stays so after every sequence
of calls without `addBusStop`, and after every sequence of calls (each with a
defined result) that holds an `addBusStop` the role exists and `removeBusStop`
has a defined result. -/
theorem fresh_object_roles (id : Id) (a : AttributeMap) (ps : Polygons3d)
    (l : LineString3d) (b : BusStop) (h : BusStop.make id a ps l = .ok b) :
    b.parameters = [(RoleNameString.Refers, toRuleParameters ps),
        (RoleNameString.RefLine, [RuleParameter.lineString l])] ∧
      (∀ k, HybridMap.find b.parameters k ≠ none ↔
        (k = RoleNameString.Refers ∨ k = RoleNameString.RefLine)) ∧
      HybridMap.find b.parameters "bus_stop" = none ∧
      (∀ p, b.removeBusStop p = none) ∧
      (∀ ops b1, (∀ c ∈ ops, Mutator.isAddBusStop c = false) → b.calls ops = some b1 →
        ∀ p, b1.removeBusStop p = none) ∧
      (∀ ops b1, (∃ c ∈ ops, Mutator.isAddBusStop c = true) → b.calls ops = some b1 →
        ∀ p, ∃ r b2, b1.removeBusStop p = some (r, b2)) ∧
      (∀ q p, ∃ r b2, (b.addBusStop q).removeBusStop p = some (r, b2)) := by
  rw [make_eq_fromData] at h
  have hb := fromData_ok_eq _ b h
  subst hb
  have hparams : (⟨constructBusStopData id a ps l⟩ : BusStop).parameters
      = [(RoleNameString.Refers, toRuleParameters ps),
        (RoleNameString.RefLine, [RuleParameter.lineString l])] :=
    constructBusStopData_parameters id a ps l
  have habsent : HybridMap.find (⟨constructBusStopData id a ps l⟩ : BusStop).parameters
      "bus_stop" = none := by
    rw [hparams]
    simp [HybridMap.find, RoleNameString.Refers, RoleNameString.RefLine]
  refine ⟨hparams, ?_, habsent, ?_, ?_, ?_, ?_⟩
  · intro k
    rw [hparams]
    by_cases h1 : RoleNameString.Refers = k
    · simp [HybridMap.find, h1]
    · by_cases h2 : RoleNameString.RefLine = k
      · simp [HybridMap.find, h1, h2]
      · simp [HybridMap.find, h1, h2, Ne.symm h1, Ne.symm h2]
  · intro p
    exact removeBusStop_of_find_none _ p habsent
  · intro ops b1 hops hrun p
    exact removeBusStop_of_find_none b1 p
      (find_bus_stop_calls_of_absent ops _ b1 hrun hops habsent)
  · intro ops b1 hops hrun p
    exact removeBusStop_defined_of_present b1 p
      (find_bus_stop_calls_of_addBusStop ops _ b1 hrun hops)
  · intro q p
    apply removeBusStop_defined_of_present
    rw [find_addBusStop_self]
    simp

theorem fresh_object_roles_witness :
    BusStop.make 1 [] [P1] L1 = .ok ⟨constructBusStopData 1 [] [P1] L1⟩ ∧
    (⟨constructBusStopData 1 [] [P1] L1⟩ : BusStop).removeBusStop P1 = none ∧
    (⟨constructBusStopData 1 [] [P1] L1⟩ : BusStop).calls sampleCalls = some sampleAfterCalls ∧
    ∃ r b2, sampleAfterCalls.removeBusStop P1 = some (r, b2) :=
  ⟨rfl,
    (fresh_object_roles 1 [] [P1] L1 _ rfl).2.2.2.1 P1,
    by decide,
    (fresh_object_roles 1 [] [P1] L1 _ rfl).2.2.2.2.2.1 sampleCalls sampleAfterCalls
      ⟨Mutator.addBusStop P2, by decide, rfl⟩ (by decide) P1⟩

/-! ## `addBusStop` followed by `removeBusStop` -/

/-- The result of `addBusStop(p)` followed by `removeBusStop(p)`. -/
theorem addBusStop_removeBusStop_eq (b : BusStop) (p : Polygon3d) :
    (b.addBusStop p).removeBusStop p =
      some (true,
        ⟨⟨b.data.id,
          HybridMap.assign b.parameters "bus_stop"
            (((HybridMap.find b.parameters "bus_stop").getD []
              ++ [RuleParameter.polygon p]).erase (RuleParameter.polygon p)),
          b.data.attributes⟩⟩) := by
  have hfind := find_addBusStop_self b p
  have hrem := removeBusStop_of_find (b.addBusStop p) p _ hfind
  have hmem : RuleParameter.polygon p ∈
      (HybridMap.find b.parameters "bus_stop").getD [] ++ [RuleParameter.polygon p] := by
    simp
  rw [decide_eq_true hmem, addBusStop_parameters, HybridMap.assign_assign] at hrem
  rw [hrem]
  have hid : (b.addBusStop p).data.id = b.data.id := addBusStop_id b p
  have hattr : (b.addBusStop p).data.attributes = b.data.attributes :=
    addBusStop_attributes b p
  rw [hid, hattr]

/-- C17: for every object and polygon `p`, `addBusStop(p)` followed by
`removeBusStop(p)` returns true and leaves the list under the role "bus_stop"
(empty when the role was absent) with the length it had; when `p` did not
occur in it the list is as before (and so is the whole object when the role
was present), and when `p` occurred its first occurrence is the one erased
while the appended `p` stays at the end. -/
theorem addBusStop_removeBusStop (b : BusStop) (p : Polygon3d) :
    ∃ b', (b.addBusStop p).removeBusStop p = some (true, b') ∧
      HybridMap.find b'.parameters "bus_stop"
        = some (((HybridMap.find b.parameters "bus_stop").getD []
            ++ [RuleParameter.polygon p]).erase (RuleParameter.polygon p)) ∧
      (∀ after, HybridMap.find b'.parameters "bus_stop" = some after →
        after.length = ((HybridMap.find b.parameters "bus_stop").getD []).length) ∧
      (RuleParameter.polygon p ∉ (HybridMap.find b.parameters "bus_stop").getD [] →
        HybridMap.find b'.parameters "bus_stop"
          = some ((HybridMap.find b.parameters "bus_stop").getD [])) ∧
      (RuleParameter.polygon p ∈ (HybridMap.find b.parameters "bus_stop").getD [] →
        ∃ l₁ l₂, (HybridMap.find b.parameters "bus_stop").getD []
            = l₁ ++ RuleParameter.polygon p :: l₂ ∧
          RuleParameter.polygon p ∉ l₁ ∧
          HybridMap.find b'.parameters "bus_stop"
            = some (l₁ ++ l₂ ++ [RuleParameter.polygon p])) ∧
      (∀ member, HybridMap.find b.parameters "bus_stop" = some member →
        RuleParameter.polygon p ∉ member → b' = b) := by
  have hmem : RuleParameter.polygon p ∈
      (HybridMap.find b.parameters "bus_stop").getD [] ++ [RuleParameter.polygon p] := by
    simp
  have hafter : ∀ X : RuleParameters,
      HybridMap.find (⟨⟨b.data.id, HybridMap.assign b.parameters "bus_stop" X,
        b.data.attributes⟩⟩ : BusStop).parameters "bus_stop" = some X :=
    fun X => HybridMap.find_assign_self b.parameters "bus_stop" X
  refine ⟨_, addBusStop_removeBusStop_eq b p, hafter _, ?_, ?_, ?_, ?_⟩
  · intro after h
    rw [hafter] at h
    cases h
    rw [List.length_erase_of_mem hmem]
    simp
  · intro hnot
    rw [hafter, List.erase_append_right _ hnot]
    simp
  · intro hin
    obtain ⟨l₁, l₂, hnot, hsplit, herase⟩ := List.exists_erase_eq hin
    refine ⟨l₁, l₂, hsplit, hnot, ?_⟩
    rw [hafter, List.erase_append_left _ hin, herase]
  · intro member hm hnot
    rw [hm, Option.getD_some, List.erase_append_right _ hnot]
    simp only [List.erase_cons_head, List.append_nil]
    rw [HybridMap.assign_eq_self b.parameters "bus_stop" member hm]
    rfl

theorem addBusStop_removeBusStop_witness :
    HybridMap.find sampleAfterCalls.parameters "bus_stop" = some [RuleParameter.polygon P1] ∧
    (sampleAfterCalls.addBusStop P1).removeBusStop P1
      = some (true, sampleAfterCalls) ∧
    (∃ b', (sampleAfterCalls.addBusStop P2).removeBusStop P2 = some (true, b') ∧
      b' = sampleAfterCalls) :=
  ⟨by decide, by decide,
    (addBusStop_removeBusStop sampleAfterCalls P2).elim
      (fun b' hb' => ⟨b', hb'.1, hb'.2.2.2.2.2 [RuleParameter.polygon P1] (by decide) (by decide)⟩)⟩

/-! ## The frame of `removeBusStop` on a created object -/

/-- C12 (evaluation of the code): on the object of `make(1, [], [P1], L1)` the
role "bus_stop" is absent, so `removeBusStop(P1)` dereferences the end
iterator and has no defined result: no object follows the call on which the
id, the attribute map and the RefLine role are those before the call.  At the
same object `addBusStop`, `setStopLine` and `removeStopLine` keep the id and
the attribute map. -/
theorem removeBusStop_frame_example :
    ∃ b, BusStop.make 1 [] [P1] L1 = .ok b ∧
      HybridMap.find b.parameters "bus_stop" = none ∧
      b.removeBusStop P1 = none ∧
      (¬ ∃ r b', b.removeBusStop P1 = some (r, b') ∧ b'.id = b.id ∧
        b'.attributes = b.attributes ∧
        HybridMap.find b'.parameters RoleNameString.RefLine
          = HybridMap.find b.parameters RoleNameString.RefLine) ∧
      (b.addBusStop P1).id = b.id ∧ (b.addBusStop P1).attributes = b.attributes ∧
      (b.setStopLine L2).id = b.id ∧ (b.setStopLine L2).attributes = b.attributes ∧
      (b.removeStopLine).id = b.id ∧ (b.removeStopLine).attributes = b.attributes := by
  have hnone : (⟨constructBusStopData 1 [] [P1] L1⟩ : BusStop).removeBusStop P1 = none := by
    decide
  refine ⟨⟨constructBusStopData 1 [] [P1] L1⟩, rfl, by decide, hnone, ?_,
    by decide, by decide, by decide, by decide, by decide, by decide⟩
  rintro ⟨r, b', h, _⟩
  rw [hnone] at h
  cases h

end autoware

end lanelet
